import Mathlib

/-!
Verification of the arkon-arise decision/strategy engine.

The definitions below are shallow embeddings of the Python source:
* `compress_failures`, `prune_memory`, `mk_summary` — `arkon_memory.py`
  (`_compress_failures`, `_prune_memory`);
* `consult_selector` — `arkon_memory.py` (`consult_selector`; the SQL query
  `SELECT selector,hint ... ORDER BY ts DESC LIMIT 1` is modelled as a scan
  for the matching row of greatest timestamp; the order of rows with equal
  timestamps is unspecified by the query, and no theorem relies on it);
* `swarm_publish`, `clean_swarm` — `arkon_swarm.py`;
* `evaluate_success`, `self_evaluate`, `parse_hint`, `phishing_guard`,
  `attempt_step`, `run_attempt_loop` — `arkon_healer.py` / `main_clone.py`.

Python `time.time()` is passed in as an explicit `now` argument, the
browser/network environment of one attempt is an explicit `AttemptEnv`
record, and CSS opacity strings (parsed with `float` in the source) are
modelled as exact rationals.
-/

/-! ### Python string primitives

Character-level models of the Python string operations the source uses
(`.strip()`, `.lower()`, `.upper()`, `in`, `.endswith`, slicing,
`.split(sep, 1)`).  They are written as structural recursions on
`List Char` so that every theorem can be checked by evaluation; on the
ASCII data this program manipulates they agree with Python. -/

/-- `starts_chars n h` is true iff `n` is a prefix of `h`. -/
def starts_chars : List Char → List Char → Bool
  | [], _ => true
  | _ :: _, [] => false
  | n :: ns, h :: hs => (n == h) && starts_chars ns hs

/-- `has_sub_chars n h` models Python `n in h` for nonempty `n`. -/
def has_sub_chars (needle : List Char) : List Char → Bool
  | [] => starts_chars needle []
  | h :: hs => starts_chars needle (h :: hs) || has_sub_chars needle hs

/-- Python `needle in hay` (substring test). -/
def py_in (needle hay : String) : Bool :=
  has_sub_chars needle.data hay.data

/-- Python `s.lower()` (ASCII). -/
def py_lower (s : String) : String :=
  String.mk (s.data.map Char.toLower)

/-- Python `s.upper()` (ASCII). -/
def py_upper (s : String) : String :=
  String.mk (s.data.map Char.toUpper)

/-- Python `s.strip()`. -/
def py_strip (s : String) : String :=
  String.mk
    (((s.data.dropWhile Char.isWhitespace).reverse.dropWhile Char.isWhitespace).reverse)

/-- Python `s.endswith(t)`. -/
def py_ends_with (s t : String) : Bool :=
  starts_chars t.data.reverse s.data.reverse

/-- Python `s[:-n]` for `0 < n ≤ len(s)` (drop the last `n` characters). -/
def py_drop_last (s : String) (n : Nat) : String :=
  String.mk (s.data.take (s.data.length - n))

/-- Split at the first occurrence of `needle`; `none` when absent.
Models Python `hay.split(needle, 1)` for nonempty `needle`. -/
def split_first (needle : List Char) : List Char → Option (List Char × List Char)
  | [] => none
  | c :: rest =>
    if starts_chars needle (c :: rest) then some ([], (c :: rest).drop needle.length)
    else (split_first needle rest).map (fun p => (c :: p.1, p.2))

/-- One row of the `events` table / one attempt-event dict
(`ts,url,goal,selector,hint,action,result,notes,sid`). -/
structure Event where
  ts : Int
  url : String
  goal : String
  selector : String
  hint : String
  action : String
  result : String
  notes : String
  sid : String
deriving DecidableEq

/-- The guard of the inner `while` loop of `_compress_failures`: the next
event extends the current run iff it is a failure with the same
url/goal/selector as the run head `ev`. -/
def match_fail (ev e : Event) : Bool :=
  (e.result == "failure") && (e.url == ev.url) && (e.goal == ev.goal)
    && (e.selector == ev.selector)

/-- The single event a run of `n` identical failures collapses to
(`_compress_failures`, the `same > 3` branch). -/
def collapse_event (ev : Event) (n : Nat) : Event :=
  { ts := ev.ts, url := ev.url, goal := ev.goal, selector := ev.selector
  , hint := ev.hint, action := "click", result := "failure"
  , notes := "Repeated-Failure x" ++ toString n, sid := ev.sid }

/-- `_compress_failures` of `arkon_memory.py`: collapse every run of more
than 3 consecutive failures sharing (url, goal, selector). -/
def compress_failures : List Event → List Event
  | [] => []
  | ev :: rest =>
    if ev.result == "failure" then
      let run := rest.takeWhile (match_fail ev)
      if 3 < run.length + 1 then
        collapse_event ev (run.length + 1) :: compress_failures (rest.drop run.length)
      else
        ev :: compress_failures rest
    else
      ev :: compress_failures rest
termination_by l => l.length
decreasing_by
  · simp only [List.length_drop, List.length_cons]; omega
  · simp only [List.length_cons]; omega
  · simp only [List.length_cons]; omega

/-! ### Threshold compaction (`_prune_memory`) -/

/-- In-place tally in first-occurrence order: the model of building a
Python dict of counts (`d[k] = d.get(k, 0) + 1`), whose `.items()`
iterate in insertion order. -/
def bump_tally : List (String × Nat) → String → List (String × Nat)
  | [], g => [(g, 1)]
  | (k, c) :: rest, g =>
    if k == g then (k, c + 1) :: rest else (k, c) :: bump_tally rest g

/-- Counts of a list of keys, in first-occurrence order. -/
def tally (keys : List String) : List (String × Nat) :=
  keys.foldl bump_tally []

/-- Stable insertion for a descending sort by count: an element stops in
front of the first entry whose count is not larger. -/
def ins_desc (x : String × Nat) : List (String × Nat) → List (String × Nat)
  | [] => [x]
  | y :: ys => if y.2 ≤ x.2 then x :: y :: ys else y :: ins_desc x ys

/-- Stable descending sort by count: the model of Python
`sorted(items, key=lambda x: x[1], reverse=True)` (Python sort is
stable, and a stable descending-by-count order is unique; this
insertion sort produces exactly that order). -/
def sort_desc : List (String × Nat) → List (String × Nat)
  | [] => []
  | x :: xs => ins_desc x (sort_desc xs)

/-- The netloc of `urllib.parse.urlparse`: strip a leading
`scheme:` (a letter followed by letters/digits/`+`/`-`/`.`), then, if
the remainder starts with `//`, the host part up to the first of
`/ ? #`; otherwise the empty string. -/
def is_scheme_char (c : Char) : Bool :=
  c.isAlphanum || (c == '+') || (c == '-') || (c == '.')

def drop_scheme (cs : List Char) : List Char :=
  match cs.findIdx? (· == ':') with
  | some i =>
    if 0 < i ∧ (cs.headD ' ').isAlpha ∧ (cs.take i).all is_scheme_char then
      cs.drop (i + 1)
    else cs
  | none => cs

def url_netloc (url : String) : String :=
  let rest := drop_scheme url.data
  match rest with
  | '/' :: '/' :: tail =>
    String.mk (tail.takeWhile (fun c => !(c == '/' || c == '?' || c == '#')))
  | _ => ""

/-- The `lines` list of `_prune_memory`, joined with `"\n"`. -/
def summary_notes (oldest : List Event) : String :=
  let successes := (oldest.filter (fun e => e.result == "success")).length
  let failures := (oldest.filter (fun e => e.result == "failure")).length
  let goals := tally (oldest.filterMap (fun e =>
    let g := py_strip e.goal
    if g ≠ "" then some g else none))
  let top_goals := (sort_desc goals).take 3
  let domains := tally (oldest.filterMap (fun e =>
    let d := url_netloc e.url
    if d ≠ "" then some d else none))
  let top_domains := (sort_desc domains).take 2
  let lines : List String :=
    [ "Compressed " ++ toString oldest.length ++ " events"
    , "Successes " ++ toString successes ++ ", Failures " ++ toString failures
    , if top_goals ≠ [] then
        "Top Goals: " ++ String.intercalate ", "
          (top_goals.map (fun p => p.1 ++ ":" ++ toString p.2))
      else "Top Goals: none"
    , if top_domains ≠ [] then
        "Domains: " ++ String.intercalate ", "
          (top_domains.map (fun p => p.1 ++ ":" ++ toString p.2))
      else "Domains: none"
    , "Retention optimized" ]
  String.intercalate "\n" lines

/-- The synthetic summary event of `_prune_memory`.  `now` is the value
of `int(time.time() * 1000)` at compaction time. -/
def mk_summary (oldest : List Event) (now : Int) : Event :=
  { ts := now, url := "summary", goal := "compressed", selector := ""
  , hint := "", action := "compress", result := "summary"
  , notes := summary_notes oldest, sid := "" }

/-- `_prune_memory` of `arkon_memory.py`, acting on the event list. -/
def prune_memory (evs : List Event) (now : Int) : List Event :=
  if 500 < evs.length then
    let oldest := evs.take 100
    let keep := evs.drop 100
    compress_failures (keep ++ [mk_summary oldest now])
  else
    compress_failures evs

/-! ### Locator lookup (`consult_selector`) -/

/-- The row filter of the query in `consult_selector`:
`WHERE url=? AND goal=? AND result='success'`. -/
def event_matches (url goal : String) (e : Event) : Bool :=
  (e.url == url) && (e.goal == goal) && (e.result == "success")

/-- One step of scanning for the matching row of greatest `ts`
(`ORDER BY ts DESC LIMIT 1`). -/
def latest_step (url goal : String) (acc : Option Event) (e : Event) : Option Event :=
  if event_matches url goal e then
    match acc with
    | none => some e
    | some b => if b.ts < e.ts then some e else some b
  else acc

/-- The row returned by `ORDER BY ts DESC LIMIT 1` (ties between equal
timestamps resolved to the first-inserted row; no theorem depends on
the tie order). -/
def latest_success (evs : List Event) (url goal : String) : Option Event :=
  evs.foldl (latest_step url goal) none

/-- `consult_selector` of `arkon_memory.py`: the most recent successful
row for the exact (url, goal) pair, provided its stripped selector is
nonempty. -/
def consult_selector (evs : List Event) (url goal : String) : Option (String × String) :=
  match latest_success evs url goal with
  | none => none
  | some e =>
    let sel := py_strip e.selector
    if sel ≠ "" then some (sel, py_strip e.hint) else none

/-! Claim C6 compares `consult_selector` with the spec's wording, so the
next definitions follow the SPEC (§4.1 step (a)), not the source:
"highest successCount wins, ties broken by most-recent lastUsedAt",
reading a locator's successCount as its number of successful events and
its lastUsedAt as the latest timestamp among them. -/

def int_list_max : List Int → Int
  | [] => 0
  | t :: rest => max t (int_list_max rest)

/-- Per the spec: (number of successes of this locator, its latest use). -/
def spec_score (evs : List Event) (url goal sel : String) : Nat × Int :=
  let es := evs.filter (fun e => event_matches url goal e && (py_strip e.selector == sel))
  (es.length, int_list_max (es.map Event.ts))

def spec_better (a b : Nat × Int) : Bool :=
  (b.1 < a.1) || ((a.1 == b.1) && (b.2 < a.2))

/-- Modelled from the spec (§4.1 resolution step (a)): exact-match lookup
returning the stored locator of highest successCount, ties broken by
most-recent lastUsedAt. -/
def spec_resolve (evs : List Event) (url goal : String) : Option String :=
  let sels := ((evs.filter (event_matches url goal)).map
    (fun e => py_strip e.selector)).filter (fun s => s ≠ "")
  sels.dedup.foldl (fun best s =>
    match best with
    | none => some s
    | some b =>
      if spec_better (spec_score evs url goal s) (spec_score evs url goal b)
      then some s else some b) none

/-! ### Swarm cache (`arkon_swarm.py`) -/

/-- One record of the swarm `"success"` array.  `cnt` and `ts` model the
optional dict entries `"success_count"` and `"ts"` (`rec.get(k, d)`). -/
structure SwarmRec where
  selector : String
  url : String
  goal : String
  sid : String
  cnt : Option Int
  ts : Option Int
deriving DecidableEq

/-- Python `int(rec.get("success_count", 1))`. -/
def swarm_cnt (r : SwarmRec) : Int := r.cnt.getD 1

/-- The match test of the `swarm_publish` loop:
same selector, url and goal. -/
def key_eq (a b : SwarmRec) : Bool :=
  (a.selector == b.selector) && (a.url == b.url) && (a.goal == b.goal)

/-- The key triple of a record. -/
def key_of (r : SwarmRec) : String × String × String :=
  (r.selector, r.url, r.goal)

/-- The in-place update applied to the first matching record. -/
def bump_rec (pub : SwarmRec) (now : Int) (r : SwarmRec) : SwarmRec :=
  { r with cnt := some (swarm_cnt r + 1), ts := some now
         , sid := if pub.sid ≠ "" then pub.sid else r.sid }

/-- The search-and-update loop of `swarm_publish`; the boolean is the
`found` flag. -/
def publish_loop (pub : SwarmRec) (now : Int) : List SwarmRec → List SwarmRec × Bool
  | [] => ([], false)
  | r :: rest =>
    if key_eq r pub then (bump_rec pub now r :: rest, true)
    else
      let p := publish_loop pub now rest
      (r :: p.1, p.2)

/-- `swarm_publish` of `arkon_swarm.py` acting on the `"success"` array
(the network side effects are out of scope). -/
def swarm_publish (pub : SwarmRec) (arr : List SwarmRec) (now : Int) : List SwarmRec :=
  let p := publish_loop pub now arr
  if p.2 then p.1
  else p.1 ++ [{ pub with cnt := some (swarm_cnt pub), ts := some now }]

/-- `_clean_swarm`: drops stale or zero-count records, but only when the
store file has grown past 2 MB (`big`). -/
def clean_swarm (big : Bool) (now : Int) (arr : List SwarmRec) : List SwarmRec :=
  if big then
    arr.filter (fun r =>
      decide (now - r.ts.getD now < 30 * 86400) && decide (1 ≤ swarm_cnt r))
  else arr

/-- The full `swarm_publish` path: upsert, then `_save(_clean_swarm(db))`. -/
def swarm_publish_full (pub : SwarmRec) (arr : List SwarmRec) (now : Int) (big : Bool) :
    List SwarmRec :=
  clean_swarm big now (swarm_publish pub arr now)

/-- At most one record per (selector, url, goal) triple. -/
def key_uniq (arr : List SwarmRec) : Prop := (arr.map key_of).Nodup

/-! ### Progress evaluation (`arkon_healer.evaluate_success`,
`main_clone.self_evaluate`) -/

/-- The Python values that flow through the evaluation code: the
singletons `True` / `False` / `None`, or the `(bool, str)` tuple that
`evaluate_success` actually returns. -/
inductive EvalVal where
  | pyBool : Bool → EvalVal
  | pyNone : EvalVal
  | pyPair : Bool → String → EvalVal
deriving DecidableEq

/-- `evaluate_success` of `arkon_healer.py`: equality comparison of the
captured state and the expected outcome, returned as a tuple. -/
def evaluate_success (action_result expected_outcome : String) : Bool × String :=
  if action_result == expected_outcome then (true, "Action was successful.")
  else (false, "Action failed to achieve expected outcome.")

/-- The value `self_evaluate` returns: the tuple from `evaluate_success`
(the annotation `Optional[bool]` notwithstanding). -/
def self_evaluate (state expected : String) : EvalVal :=
  let r := evaluate_success state expected
  .pyPair r.1 r.2

/-- Python `x is True` for these values. -/
def id_is_true (v : EvalVal) : Bool :=
  match v with
  | .pyBool true => true
  | _ => false

/-- Python `x is False` for these values. -/
def id_is_false (v : EvalVal) : Bool :=
  match v with
  | .pyBool false => true
  | _ => false

/-- The three-way classification of `self_evaluate`'s logging branches
(`is True` / `is False` / else). -/
inductive EvalClass where
  | success
  | failure
  | inconclusive
deriving DecidableEq

def self_evaluate_class (state expected : String) : EvalClass :=
  let r := self_evaluate state expected
  if id_is_true r then .success
  else if id_is_false r then .failure
  else .inconclusive

/-! ### The goal-pursuit loop of `main_clone.run_dynamic_flow`

The browser, the reasoning backends and the page are external; one
attempt's interactions with them are collected in an `AttemptEnv`
record, and the loop body becomes a function of that record and the
escalation counter `no_count`. -/

def target_url : String := "https://the-internet.herokuapp.com/dynamic_loading/2."

def goal_text : String := "Locate the start trigger and reveal \x27Hello World!\x27"

def expected_loading : String := "Loading should be starting or visible"

/-- `_parse_hint` of `main_clone.py`: split a packed `selector || HINT`
string, or recognise a trailing ` JS_CLICK` / ` FORCE_CLICK` marker. -/
def parse_hint (selector_or_hint : String) : String × String :=
  let s := py_strip selector_or_hint
  match split_first "||".data s.data with
  | some p => (py_strip (String.mk p.1), py_upper (py_strip (String.mk p.2)))
  | none =>
    if py_ends_with (py_upper s) " JS_CLICK" then
      (py_strip (py_drop_last s 9), "JS_CLICK")
    else if py_ends_with (py_upper s) " FORCE_CLICK" then
      (py_strip (py_drop_last s 12), "FORCE_CLICK")
    else (s, "")

/-- `_phishing_guard` of `main_clone.py`; true means safe. -/
def phishing_guard (url html : String) : Bool :=
  let flags :=
    (if ["login-", "verify", "secure-update", "confirm-account"].any
        (fun x => py_in x (py_lower url)) then 1 else 0)
    + (if py_in "data-keylogger" (py_lower html) then 1 else 0)
  flags == 0

/-- The computed-style triple read before interacting
(`{v: visibility, o: opacity, d: display}`); the opacity string is
modelled as an exact rational. -/
structure Styles where
  v : String
  o : ℚ
  d : String
deriving DecidableEq

/-- The honeypot test of `run_dynamic_flow`: `styles` is `none` when the
`page.evaluate` call raised (the surrounding `except` ignores it) and
`some none` when the element was not found (`styles` falsy). -/
def honeypot_flag (styles : Option (Option Styles)) : Bool :=
  match styles with
  | some (some s) => (s.v == "hidden") || (s.d == "none") || decide (s.o < 1/5)
  | _ => false

/-- The activation strategies of the ladder. -/
inductive Strategy where
  | direct
  | dispatchEvent
  | jsClick
  | forceClick
deriving DecidableEq

/-- The environment of one loop attempt: what the page and the external
capabilities would answer at each call site. -/
structure AttemptEnv where
  /-- `capture_state` at the top of the attempt. -/
  state : String
  /-- `consult_selector(target_url, goal)`. -/
  mem : Option (String × String)
  /-- `propose_selector(goal, state)` (`""` for a falsy answer). -/
  brain : String
  /-- `get_autonomous_fix(...)` (`""` for a falsy answer). -/
  fix : String
  /-- the computed-style read (see `honeypot_flag`). -/
  styles : Option (Option Styles)
  /-- whether `try_click` succeeds. -/
  directOk : Bool
  /-- whether `locator.dispatch_event("click")` succeeds. -/
  dispatchOk : Bool
  /-- whether the `querySelector(sel).click()` script succeeds. -/
  jsOk : Bool
  /-- whether the forced click succeeds. -/
  forceOk : Bool
  /-- `capture_state` inside the post-click `self_evaluate`. -/
  postState : String
deriving DecidableEq

/-- The selector string the attempt resolves to: memory first, then the
brain proposals, then the goal-keyed local fallback; `""` when all fail
(`if not sel_raw: continue`). -/
def resolve_sel (env : AttemptEnv) : String :=
  match env.mem with
  | some (s, h) => if h ≠ "" then s ++ " || " ++ h else s
  | none =>
    let b := if env.brain ≠ "" then env.brain else env.fix
    if b ≠ "" then b
    else
      let g := py_lower goal_text
      if py_in "start" g then "text=Start"
      else if py_in "hello world" g then "text=Hello World!"
      else ""

/-- The strategies `mutate_click` attempts, in its fixed order, stopping
at the first that succeeds.  The `hint` argument of `mutate_click` is
unused in the source, so it does not appear here. -/
def mutate_click_attempts (env : AttemptEnv) : List Strategy :=
  if env.dispatchOk then [.dispatchEvent]
  else if env.jsOk then [.dispatchEvent, .jsClick]
  else [.dispatchEvent, .jsClick, .forceClick]

/-- Whether `mutate_click` returns `True`. -/
def mutate_click_result (env : AttemptEnv) : Bool :=
  env.dispatchOk || env.jsOk || env.forceOk

/-- The strategies attempted by the click dispatch of
`run_dynamic_flow` (lines 495-501) for a parsed `hint`. -/
def click_attempts (env : AttemptEnv) (hint : String) : List Strategy :=
  if hint == "JS_CLICK" then mutate_click_attempts env
  else if hint == "FORCE_CLICK" then mutate_click_attempts env
  else if env.directOk then [.direct]
  else .direct :: mutate_click_attempts env

/-- The value of `clicked` after the click dispatch. -/
def click_result (env : AttemptEnv) (hint : String) : Bool :=
  if hint == "JS_CLICK" then mutate_click_result env
  else if hint == "FORCE_CLICK" then mutate_click_result env
  else env.directOk || mutate_click_result env

/-- How one attempt ends: fall through to the next attempt (`continue`
or loop advance), `break`, or the hydra-switch `return False` that
rotates to the next browser session. -/
inductive Ctrl where
  | next
  | stop
  | rotate
deriving DecidableEq

/-- Everything one iteration of the attempt loop did. -/
structure StepOut where
  /-- `record_hostile` was called. -/
  hostileRecorded : Bool
  /-- the phishing guard (not the honeypot check) fired. -/
  phishingFlag : Bool
  /-- `_move_to_selector` ran (the pointer was moved). -/
  moved : Bool
  /-- activation strategies attempted, in order. -/
  attempts : List Strategy
  /-- the value of `clicked`. -/
  clicked : Bool
  /-- the `self_evaluate` result, when evaluation was reached. -/
  evalRes : Option EvalVal
  /-- `no_count` after the iteration. -/
  noCount : Nat
  ctrl : Ctrl
deriving DecidableEq

/-- One iteration of `for attempt in range(3)` in `run_dynamic_flow`. -/
def attempt_step (env : AttemptEnv) (no_count : Nat) : StepOut :=
  let sel_raw := resolve_sel env
  if sel_raw == "" then
    { hostileRecorded := false, phishingFlag := false, moved := false
    , attempts := [], clicked := false, evalRes := none
    , noCount := no_count, ctrl := .next }
  else
    let hint := (parse_hint sel_raw).2
    if honeypot_flag env.styles then
      { hostileRecorded := true, phishingFlag := false, moved := false
      , attempts := [], clicked := false, evalRes := none
      , noCount := no_count, ctrl := .next }
    else if !phishing_guard target_url env.state then
      { hostileRecorded := true, phishingFlag := true, moved := false
      , attempts := [], clicked := false, evalRes := none
      , noCount := no_count, ctrl := .stop }
    else
      let clicked := click_result env hint
      let er := self_evaluate env.postState expected_loading
      if id_is_false er && decide (2 ≤ no_count + 1) then
        { hostileRecorded := false, phishingFlag := false, moved := true
        , attempts := click_attempts env hint, clicked := clicked
        , evalRes := some er, noCount := no_count + 1, ctrl := .rotate }
      else
        let nc := if id_is_false er then no_count + 1 else no_count
        { hostileRecorded := false, phishingFlag := false, moved := true
        , attempts := click_attempts env hint, clicked := clicked
        , evalRes := some er, noCount := nc
        , ctrl := if clicked then .stop else .next }

/-- The outcome of the whole attempt loop. -/
structure FlowResult where
  /-- the hydra-switch `return False` was taken (session rotation). -/
  escalated : Bool
  noCount : Nat
  attemptsMade : Nat
deriving DecidableEq

def run_attempt_loop : List AttemptEnv → Nat → FlowResult
  | [], nc => { escalated := false, noCount := nc, attemptsMade := 0 }
  | env :: rest, nc =>
    let s := attempt_step env nc
    match s.ctrl with
    | .rotate => { escalated := true, noCount := s.noCount, attemptsMade := 1 }
    | .stop => { escalated := false, noCount := s.noCount, attemptsMade := 1 }
    | .next =>
      let r := run_attempt_loop rest s.noCount
      { escalated := r.escalated, noCount := r.noCount
      , attemptsMade := r.attemptsMade + 1 }

/-- `for attempt in range(3)` with `no_count = 0`, fed by one
environment per iteration. -/
def run_dynamic_flow (envs : List AttemptEnv) : FlowResult :=
  run_attempt_loop (envs.take 3) 0

/-! ### Concrete inputs used by witnesses and counterexamples -/

/-- A failure event used to exercise run compaction. -/
def ev_f : Event :=
  { ts := 1, url := "u", goal := "g", selector := "s", hint := ""
  , action := "click", result := "failure", notes := "n", sid := "" }

/-- A success event. -/
def ev_s : Event :=
  { ts := 4, url := "https://x.com/p", goal := "g", selector := "s", hint := ""
  , action := "click", result := "success", notes := "", sid := "" }

/-- A success event with timestamp 0 (the oldest in its log). -/
def ev_s0 : Event :=
  { ts := 0, url := "https://x.com/p", goal := "g", selector := "s", hint := ""
  , action := "click", result := "success", notes := "", sid := "" }

/-- A success event for (u, g) with selector `a` at time `t`. -/
def ev_a (t : Int) : Event :=
  { ts := t, url := "u", goal := "g", selector := "a", hint := ""
  , action := "click", result := "success", notes := "", sid := "" }

/-- A success event for (u, g) with selector `b` at time 6. -/
def ev_b : Event :=
  { ts := 6, url := "u", goal := "g", selector := "b", hint := ""
  , action := "click", result := "success", notes := "", sid := "" }

/-- Selector `a` succeeded five times (timestamps 1..5), selector `b`
once, most recently (timestamp 6). -/
def demo_c6 : List Event :=
  [ev_a 1, ev_a 2, ev_a 3, ev_a 4, ev_a 5, ev_b]

/-- Two successes for (u, g); the later one uses selector `b`. -/
def demo_w6 : List Event :=
  [ { ts := 1, url := "u", goal := "g", selector := "a", hint := "h1"
    , action := "click", result := "success", notes := "", sid := "" }
  , { ts := 2, url := "u", goal := "g", selector := "b", hint := "h2"
    , action := "click", result := "success", notes := "", sid := "" } ]

/-- A swarm record as first published: no `success_count`, no `ts` yet. -/
def rec_w7 : SwarmRec :=
  { selector := "button#start", url := "u", goal := "g", sid := ""
  , cnt := none, ts := none }

/-- An attempt environment in which every click strategy fails and the
page never shows the expected text. -/
def env_w1 : AttemptEnv :=
  { state := "", mem := some ("text=Start", ""), brain := "", fix := ""
  , styles := some none, directOk := false, dispatchOk := false
  , jsOk := false, forceOk := false, postState := "no hello" }

/-- An environment whose dispatch-event strategy succeeds. -/
def env_c5 : AttemptEnv :=
  { state := "", mem := some ("text=Start", ""), brain := "", fix := ""
  , styles := some none, directOk := false, dispatchOk := true
  , jsOk := false, forceOk := false, postState := "n" }

/-- An environment whose target element has computed opacity 0.05. -/
def env_w8 : AttemptEnv :=
  { state := "", mem := some ("text=Start", ""), brain := "", fix := ""
  , styles := some (some { v := "visible", o := 1/20, d := "block" })
  , directOk := true, dispatchOk := true, jsOk := true, forceOk := true
  , postState := "n" }

/-! ## Helper lemmas -/

theorem compress_failures_nil : compress_failures [] = [] := by
  simp [compress_failures]

theorem compress_failures_cons (ev : Event) (rest : List Event) :
    compress_failures (ev :: rest) =
      if ev.result == "failure" then
        if 3 < (rest.takeWhile (match_fail ev)).length + 1 then
          collapse_event ev ((rest.takeWhile (match_fail ev)).length + 1) ::
            compress_failures (rest.drop (rest.takeWhile (match_fail ev)).length)
        else
          ev :: compress_failures rest
      else
        ev :: compress_failures rest := by
  rw [compress_failures]

/-- An event that is not a failure passes through compaction. -/
theorem compress_failures_cons_of_not_fail (ev : Event) (rest : List Event)
    (h : ev.result ≠ "failure") :
    compress_failures (ev :: rest) = ev :: compress_failures rest := by
  rw [compress_failures_cons]
  simp [h]

/-- A list without failure events is left unchanged by run compaction. -/
theorem compress_failures_id_of_no_fail (l : List Event)
    (h : ∀ e ∈ l, e.result ≠ "failure") : compress_failures l = l := by
  induction l with
  | nil => exact compress_failures_nil
  | cons ev rest ih =>
    rw [compress_failures_cons_of_not_fail ev rest (h ev (List.mem_cons_self ev rest))]
    rw [ih (fun e he => h e (List.mem_cons_of_mem ev he))]

/-- Over-threshold branch of `_prune_memory`. -/
theorem prune_memory_of_gt (evs : List Event) (now : Int) (h : 500 < evs.length) :
    prune_memory evs now =
      compress_failures (evs.drop 100 ++ [mk_summary (evs.take 100) now]) := by
  simp only [prune_memory, if_pos h]

/-- Under-threshold branch of `_prune_memory`. -/
theorem prune_memory_of_le (evs : List Event) (now : Int) (h : evs.length ≤ 500) :
    prune_memory evs now = compress_failures evs := by
  simp only [prune_memory, if_neg (by omega : ¬ 500 < evs.length)]

/-! ## Claims -/

/-- C2: `evaluate_success` returns a `(bool, str)` tuple, so the
`is True` / `is False` identity tests of `self_evaluate` and of the
attempt loop never fire: every evaluation is classified Inconclusive —
even an exact match of state and expectation — and the `is False` test
that increments the escalation counter is false for every input. -/
theorem claim2_evaluator_never_tristate (s e : String) :
    self_evaluate_class s e = EvalClass.inconclusive
    ∧ id_is_true (self_evaluate s e) = false
    ∧ id_is_false (self_evaluate s e) = false
    ∧ (s = e → self_evaluate s e = .pyPair true "Action was successful.")
    ∧ (s ≠ e → self_evaluate s e =
        .pyPair false "Action failed to achieve expected outcome.") := by
  refine ⟨rfl, rfl, rfl, ?_, ?_⟩
  · intro h
    simp [self_evaluate, evaluate_success, h]
  · intro h
    simp [self_evaluate, evaluate_success, h]

/-- C2 witness at equal and unequal concrete inputs. -/
theorem claim2_witness :
    self_evaluate_class "Loading" "Loading" = EvalClass.inconclusive
    ∧ self_evaluate "Loading" "Loading" = .pyPair true "Action was successful."
    ∧ self_evaluate_class "x" "Loading" = EvalClass.inconclusive := by
  refine ⟨(claim2_evaluator_never_tristate "Loading" "Loading").1,
    (claim2_evaluator_never_tristate "Loading" "Loading").2.2.2.1 rfl,
    (claim2_evaluator_never_tristate "x" "Loading").1⟩

/-- C1 (code bug): a run in which every attempt resolves a selector,
passes both guards, fails every click strategy, and genuinely fails
evaluation (the page text differs from the expectation). -/
def failing_attempt (env : AttemptEnv) : Prop :=
  resolve_sel env ≠ ""
  ∧ honeypot_flag env.styles = false
  ∧ phishing_guard target_url env.state = true
  ∧ env.directOk = false ∧ env.dispatchOk = false
  ∧ env.jsOk = false ∧ env.forceOk = false
  ∧ env.postState ≠ expected_loading

theorem click_result_of_all_fail (env : AttemptEnv) (hint : String)
    (hd : env.directOk = false) (hdi : env.dispatchOk = false)
    (hj : env.jsOk = false) (hf : env.forceOk = false) :
    click_result env hint = false := by
  simp [click_result, mutate_click_result, hd, hdi, hj, hf]

theorem attempt_step_of_failing (env : AttemptEnv) (nc : Nat)
    (h : failing_attempt env) :
    (attempt_step env nc).ctrl = Ctrl.next
    ∧ (attempt_step env nc).noCount = nc := by
  obtain ⟨hsel, hhp, hpg, hd, hdi, hj, hf, _⟩ := h
  have h1 : (resolve_sel env == "") = false := by
    simpa using hsel
  have hclick := click_result_of_all_fail env (parse_hint (resolve_sel env)).2 hd hdi hj hf
  have hfalse : id_is_false (self_evaluate env.postState expected_loading) = false := rfl
  simp [attempt_step, h1, hhp, hpg, hclick, hfalse]

theorem run_loop_next (env : AttemptEnv) (rest : List AttemptEnv) (nc : Nat)
    (h : (attempt_step env nc).ctrl = Ctrl.next) :
    run_attempt_loop (env :: rest) nc =
      { escalated := (run_attempt_loop rest (attempt_step env nc).noCount).escalated
      , noCount := (run_attempt_loop rest (attempt_step env nc).noCount).noCount
      , attemptsMade :=
          (run_attempt_loop rest (attempt_step env nc).noCount).attemptsMade + 1 } := by
  simp only [run_attempt_loop]
  rw [h]

/-- C1: in the code as written, two consecutive genuinely-failing
evaluations do NOT rotate the session: `eval_res is False` compares the
`(bool, str)` tuple returned by `evaluate_success` with `False`, so
`no_count` never increments, the hydra-switch return is never taken,
and a third attempt runs on the same session.  Each evaluation really
was the failure tuple, as the last conjunct shows. -/
theorem claim1_no_rotation_on_failures (e1 e2 e3 : AttemptEnv)
    (h1 : failing_attempt e1) (h2 : failing_attempt e2) (h3 : failing_attempt e3) :
    run_dynamic_flow [e1, e2, e3] =
      { escalated := false, noCount := 0, attemptsMade := 3 }
    ∧ (∀ env ∈ [e1, e2, e3], self_evaluate env.postState expected_loading =
        .pyPair false "Action failed to achieve expected outcome.") := by
  constructor
  · have s1 := attempt_step_of_failing e1 0 h1
    have s2 := attempt_step_of_failing e2 0 h2
    have s3 := attempt_step_of_failing e3 0 h3
    show run_attempt_loop ([e1, e2, e3].take 3) 0 = _
    rw [List.take_of_length_le (by simp)]
    rw [run_loop_next e1 [e2, e3] 0 s1.1, s1.2]
    rw [run_loop_next e2 [e3] 0 s2.1, s2.2]
    rw [run_loop_next e3 [] 0 s3.1, s3.2]
    rfl
  · intro env henv
    simp only [List.mem_cons, List.not_mem_nil, or_false] at henv
    have hpost : env.postState ≠ expected_loading := by
      rcases henv with rfl | rfl | rfl
      · exact h1.2.2.2.2.2.2.2
      · exact h2.2.2.2.2.2.2.2
      · exact h3.2.2.2.2.2.2.2
    simp [self_evaluate, evaluate_success, hpost]

/-- C1 witness: a concrete environment that fails every strategy and
every evaluation; all three attempts run and no rotation happens. -/
theorem claim1_witness :
    run_dynamic_flow [env_w1, env_w1, env_w1] =
      { escalated := false, noCount := 0, attemptsMade := 3 } :=
  (claim1_no_rotation_on_failures env_w1 env_w1 env_w1
    (by refine ⟨?_, rfl, ?_, rfl, rfl, rfl, rfl, ?_⟩ <;> decide)
    (by refine ⟨?_, rfl, ?_, rfl, rfl, rfl, rfl, ?_⟩ <;> decide)
    (by refine ⟨?_, rfl, ?_, rfl, rfl, rfl, rfl, ?_⟩ <;> decide)).1

/-- C5 counterexample: with the resolved hint naming `JS_CLICK`, the
activation nevertheless attempts (and succeeds with) the dispatch-event
strategy — a strategy other than the named one — because `mutate_click`
ignores its `hint` parameter. -/
theorem claim5_counterexample :
    click_attempts env_c5 "JS_CLICK" = [Strategy.dispatchEvent]
    ∧ Strategy.jsClick ∉ click_attempts env_c5 "JS_CLICK"
    ∧ Strategy.dispatchEvent ≠ Strategy.jsClick
    ∧ click_result env_c5 "JS_CLICK" = true := by
  refine ⟨rfl, by decide, by decide, rfl⟩

/-- C5 (amended): when the resolved hint names `JS_CLICK` or
`FORCE_CLICK`, the direct-click strategy is skipped and the
`mutate_click` ladder (dispatch event, then JS click, then force click)
runs in its fixed order stopping at the first success; the named
strategy does not restrict which ladder strategies are attempted. -/
theorem claim5_hint_selects_ladder_only (env : AttemptEnv) (hint : String)
    (h : hint = "JS_CLICK" ∨ hint = "FORCE_CLICK") :
    click_attempts env hint = mutate_click_attempts env
    ∧ Strategy.direct ∉ click_attempts env hint
    ∧ click_result env hint = mutate_click_result env := by
  have hnm : Strategy.direct ∉ mutate_click_attempts env := by
    unfold mutate_click_attempts
    split_ifs <;> simp
  rcases h with h | h <;> subst h
  · exact ⟨rfl, hnm, rfl⟩
  · exact ⟨rfl, hnm, rfl⟩

/-- C5 witness at a concrete environment and the `FORCE_CLICK` hint. -/
theorem claim5_witness :
    click_attempts env_c5 "FORCE_CLICK" = mutate_click_attempts env_c5
    ∧ Strategy.direct ∉ click_attempts env_c5 "FORCE_CLICK" :=
  ⟨(claim5_hint_selects_ladder_only env_c5 "FORCE_CLICK" (Or.inr rfl)).1,
   (claim5_hint_selects_ladder_only env_c5 "FORCE_CLICK" (Or.inr rfl)).2.1⟩

/-- C8: when the computed style of the target is hidden, display:none,
or has opacity below 0.2, the attempt records a hostile event and moves
on without moving the pointer and without attempting any activation
strategy. -/
theorem claim8_honeypot_aborts (env : AttemptEnv) (nc : Nat) (sty : Styles)
    (hsel : resolve_sel env ≠ "")
    (hsty : env.styles = some (some sty))
    (hhp : sty.v = "hidden" ∨ sty.d = "none" ∨ sty.o < 1/5) :
    attempt_step env nc =
      { hostileRecorded := true, phishingFlag := false, moved := false
      , attempts := [], clicked := false, evalRes := none
      , noCount := nc, ctrl := .next } := by
  have h1 : (resolve_sel env == "") = false := by simpa using hsel
  have h2 : honeypot_flag env.styles = true := by
    rw [hsty]
    rcases hhp with h | h | h
    · simp [honeypot_flag, h]
    · simp [honeypot_flag, h]
    · have hd : decide (sty.o < 1/5) = true := decide_eq_true h
      show ((sty.v == "hidden") || (sty.d == "none") || decide (sty.o < 1/5)) = true
      rw [hd, Bool.or_true]
  simp [attempt_step, h1, h2]

/-- C8 witness: computed opacity 0.05 triggers the honeypot abort. -/
theorem claim8_witness :
    attempt_step env_w8 0 =
      { hostileRecorded := true, phishingFlag := false, moved := false
      , attempts := [], clicked := false, evalRes := none
      , noCount := 0, ctrl := .next } :=
  claim8_honeypot_aborts env_w8 0 { v := "visible", o := 1/20, d := "block" }
    (by decide) rfl (Or.inr (Or.inr (by norm_num)))

/-- C10: when at most 500 events are stored, pruning adds no summary
event and the resulting log is exactly the failure-run compaction of
the input. -/
theorem claim10_prune_below_threshold (evs : List Event) (now : Int)
    (h : evs.length ≤ 500) :
    prune_memory evs now = compress_failures evs :=
  prune_memory_of_le evs now h

/-- C10 witness on a 5-event log of identical failures. -/
theorem claim10_witness :
    (List.replicate 5 ev_f).length ≤ 500
    ∧ prune_memory (List.replicate 5 ev_f) 0 =
        compress_failures (List.replicate 5 ev_f) :=
  ⟨by decide, claim10_prune_below_threshold (List.replicate 5 ev_f) 0 (by decide)⟩

/-- Every member of an `n`-fold replication with one event appended is
the replicated event or the appended one. -/
theorem mem_replicate_drop_append (n k : Nat) (e s x : Event)
    (hx : x ∈ (List.replicate n e).drop k ++ [s]) : x = e ∨ x = s := by
  rcases List.mem_append.1 hx with h | h
  · exact Or.inl (List.eq_of_mem_replicate (List.mem_of_mem_drop h))
  · simp only [List.mem_singleton] at h
    exact Or.inr h

/-- C4: with 600 stored events the over-threshold branch fires; absent
further failure-run collapsing in the carried set, the new log is
exactly the 500 carried-forward events followed by the one synthetic
summary event (whose note carries the success/failure counts, top-3
goals and top-2 domains of the 100 set-aside events, per
`mk_summary`). -/
theorem claim4_threshold_compaction (evs : List Event) (now : Int)
    (hlen : evs.length = 600)
    (hnc : compress_failures (evs.drop 100 ++ [mk_summary (evs.take 100) now]) =
      evs.drop 100 ++ [mk_summary (evs.take 100) now]) :
    prune_memory evs now = evs.drop 100 ++ [mk_summary (evs.take 100) now]
    ∧ (prune_memory evs now).length = 501 := by
  have h1 := prune_memory_of_gt evs now (by omega)
  have h2 : prune_memory evs now = evs.drop 100 ++ [mk_summary (evs.take 100) now] := by
    rw [h1, hnc]
  refine ⟨h2, ?_⟩
  rw [h2]
  simp [List.length_append, List.length_drop, hlen]

/-- C4 witness: 600 identical success events (no failure runs, so the
carried set is untouched by run compaction). -/
theorem claim4_witness :
    prune_memory (List.replicate 600 ev_s) 7 =
      (List.replicate 600 ev_s).drop 100 ++
        [mk_summary ((List.replicate 600 ev_s).take 100) 7]
    ∧ (prune_memory (List.replicate 600 ev_s) 7).length = 501 :=
  claim4_threshold_compaction (List.replicate 600 ev_s) 7 (by rw [List.length_replicate])
    (compress_failures_id_of_no_fail _ (by
      intro x hx
      rcases mem_replicate_drop_append 600 100 ev_s _ x hx with rfl | rfl
      · decide
      · decide))

/-- C9 counterexample: a 501-event log whose events all carry timestamp
0, compacted at time 5: the synthetic summary event (the last entry of
the new log) is timestamped 5, not with the oldest set-aside event's
timestamp 0. -/
theorem claim9_counterexample :
    (prune_memory (List.replicate 501 ev_s0) 5).getLast? =
      some (mk_summary ((List.replicate 501 ev_s0).take 100) 5)
    ∧ (mk_summary ((List.replicate 501 ev_s0).take 100) 5).ts = 5
    ∧ ((List.replicate 501 ev_s0).take 100).head?.map Event.ts = some 0
    ∧ (5 : Int) ≠ 0 := by
  have h1 := prune_memory_of_gt (List.replicate 501 ev_s0) 5
    (by rw [List.length_replicate]; omega)
  have hid := compress_failures_id_of_no_fail
    ((List.replicate 501 ev_s0).drop 100 ++
      [mk_summary ((List.replicate 501 ev_s0).take 100) 5]) (by
    intro x hx
    rcases mem_replicate_drop_append 501 100 ev_s0 _ x hx with rfl | rfl
    · decide
    · decide)
  refine ⟨?_, rfl, ?_, by decide⟩
  · rw [h1, hid, List.getLast?_concat]
  · rw [List.take_replicate, List.head?_replicate]
    norm_num [ev_s0]

/-- C9 (amended): the synthetic summary event is timestamped with the
compaction time (`int(time.time() * 1000)` at the moment `_prune_memory`
runs), not with the oldest set-aside event's timestamp. -/
theorem claim9_summary_ts_is_now (evs : List Event) (now : Int)
    (h : 500 < evs.length) :
    prune_memory evs now =
      compress_failures (evs.drop 100 ++ [mk_summary (evs.take 100) now])
    ∧ (mk_summary (evs.take 100) now).ts = now :=
  ⟨prune_memory_of_gt evs now h, rfl⟩

/-- C9 witness on a concrete over-threshold log. -/
theorem claim9_witness :
    prune_memory (List.replicate 501 ev_s) 3 =
      compress_failures ((List.replicate 501 ev_s).drop 100 ++
        [mk_summary ((List.replicate 501 ev_s).take 100) 3])
    ∧ (mk_summary ((List.replicate 501 ev_s).take 100) 3).ts = 3 :=
  claim9_summary_ts_is_now (List.replicate 501 ev_s) 3
    (by rw [List.length_replicate]; omega)

/-- `takeWhile` over a block that wholly satisfies the predicate,
followed by a suffix whose head does not. -/
theorem takeWhile_append_of_all {α : Type} (p : α → Bool) (run suffix : List α)
    (hall : ∀ e ∈ run, p e = true)
    (hstop : ∀ e, suffix.head? = some e → p e = false) :
    (run ++ suffix).takeWhile p = run := by
  induction run with
  | nil =>
    cases suffix with
    | nil => rfl
    | cons s ss =>
      simp only [List.nil_append, List.takeWhile_cons, hstop s rfl]
      simp
  | cons a rest ih =>
    have ha := hall a (List.mem_cons_self a rest)
    simp only [List.cons_append, List.takeWhile_cons, ha,
      ih (fun e he => hall e (List.mem_cons_of_mem a he))]
    simp

/-- Events matching the head of a run match exactly what the head
matches: `match_fail` only looks at the shared key fields. -/
theorem match_fail_trans (ev r e : Event) (hr : match_fail ev r = true) :
    match_fail r e = match_fail ev e := by
  simp only [match_fail, Bool.and_eq_true, beq_iff_eq] at hr
  obtain ⟨⟨⟨_, hurl⟩, hgoal⟩, hsel⟩ := hr
  simp only [match_fail, hurl, hgoal, hsel]

/-- A run of at most 3 matching failures passes through compaction
unchanged (given the suffix does not extend the run). -/
theorem compress_pass_run (ev : Event) (suffix : List Event)
    (hstop : ∀ e, suffix.head? = some e → match_fail ev e = false) :
    ∀ run : List Event, (∀ e ∈ run, match_fail ev e = true) → run.length ≤ 3 →
    compress_failures (run ++ suffix) = run ++ compress_failures suffix := by
  intro run
  induction run with
  | nil => intro _ _; rfl
  | cons r rest ih =>
    intro hall hlen
    have hr := hall r (List.mem_cons_self r rest)
    have hrest : ∀ e ∈ rest, match_fail ev e = true :=
      fun e he => hall e (List.mem_cons_of_mem r he)
    have hres : (r.result == "failure") = true := by
      have := hr
      simp only [match_fail, Bool.and_eq_true] at this
      exact this.1.1.1
    have htw : (rest ++ suffix).takeWhile (match_fail r) = rest :=
      takeWhile_append_of_all (match_fail r) rest suffix
        (fun e he => by rw [match_fail_trans ev r e hr]; exact hrest e he)
        (fun e he => by rw [match_fail_trans ev r e hr]; exact hstop e he)
    rw [List.cons_append, compress_failures_cons, if_pos hres, htw]
    have hnlt : ¬ 3 < rest.length + 1 := by
      simp only [List.length_cons] at hlen
      omega
    rw [if_neg hnlt, ih hrest (by simp only [List.length_cons] at hlen; omega)]
    rfl

/-- C3: a maximal run of more than 3 consecutive failures sharing
(url, goal, selector) collapses to the single `Repeated-Failure x<N>`
event (with N the run length); runs of at most 3, and events that are
not failures, pass through unchanged in order. -/
theorem claim3_failure_run_compaction :
    (∀ (ev : Event) (run suffix : List Event),
      ev.result = "failure" →
      (∀ e ∈ run, match_fail ev e = true) →
      (∀ e, suffix.head? = some e → match_fail ev e = false) →
      (3 < run.length + 1 →
        compress_failures (ev :: (run ++ suffix)) =
          collapse_event ev (run.length + 1) :: compress_failures suffix)
      ∧ (run.length + 1 ≤ 3 →
        compress_failures (ev :: (run ++ suffix)) =
          ev :: run ++ compress_failures suffix))
    ∧ (∀ (e : Event) (l : List Event), e.result ≠ "failure" →
        compress_failures (e :: l) = e :: compress_failures l)
    ∧ (∀ (ev : Event) (n : Nat),
        (collapse_event ev n).result = "failure"
        ∧ (collapse_event ev n).notes = "Repeated-Failure x" ++ toString n) := by
  refine ⟨?_, ?_, fun ev n => ⟨rfl, rfl⟩⟩
  · intro ev run suffix hres hall hstop
    have hbeq : (ev.result == "failure") = true := by simp [hres]
    have htw : (run ++ suffix).takeWhile (match_fail ev) = run :=
      takeWhile_append_of_all (match_fail ev) run suffix hall hstop
    constructor
    · intro hgt
      rw [compress_failures_cons, if_pos hbeq, htw, if_pos hgt, List.drop_left]
    · intro hle
      rw [compress_failures_cons, if_pos hbeq, htw, if_neg (by omega)]
      rw [compress_pass_run ev suffix hstop run hall (by omega)]
      rfl
  · exact fun e l he => compress_failures_cons_of_not_fail e l he

/-- C3 witness: five identical consecutive failures collapse to the one
event with note `Repeated-Failure x5`. -/
theorem claim3_witness :
    compress_failures (ev_f :: (List.replicate 4 ev_f ++ [])) =
      [collapse_event ev_f 5]
    ∧ (collapse_event ev_f 5).notes = "Repeated-Failure x5" := by
  have h := ((claim3_failure_run_compaction.1 ev_f (List.replicate 4 ev_f) []
    rfl (by decide) (by intro e he; simp at he)).1 (by decide))
  rw [compress_failures_nil] at h
  exact ⟨h, rfl⟩

/-- Once the scan holds the strictly latest matching row, later rows
never displace it. -/
theorem latest_keep (url goal : String) (e : Event) :
    ∀ l : List Event, (∀ x ∈ l, event_matches url goal x = true → x.ts ≤ e.ts) →
    l.foldl (latest_step url goal) (some e) = some e := by
  intro l
  induction l with
  | nil => intro _; rfl
  | cons a rest ih =>
    intro h
    have hstep : latest_step url goal (some e) a = some e := by
      unfold latest_step
      by_cases hm : event_matches url goal a = true
      · rw [if_pos hm]
        show (if e.ts < a.ts then some a else some e) = some e
        rw [if_neg (by
          have := h a (List.mem_cons_self a rest) hm
          omega)]
      · rw [if_neg hm]
    rw [List.foldl_cons, hstep]
    exact ih (fun x hx => h x (List.mem_cons_of_mem a hx))

/-- The scan of `consult_selector` returns the matching row whose
timestamp strictly dominates every other matching row, whatever
smaller-timestamp row the accumulator currently holds. -/
theorem latest_aux (url goal : String) (e : Event) :
    ∀ (l : List Event) (acc : Option Event), e ∈ l →
    event_matches url goal e = true →
    (∀ x ∈ l, event_matches url goal x = true → x = e ∨ x.ts < e.ts) →
    (∀ b, acc = some b → b.ts < e.ts) →
    l.foldl (latest_step url goal) acc = some e := by
  intro l
  induction l with
  | nil => intro acc hmem; exact absurd hmem (List.not_mem_nil e)
  | cons a rest ih =>
    intro acc hmem hme hdom hacc
    by_cases hma : event_matches url goal a = true
    · by_cases hae : a = e
      · subst hae
        have hstep : latest_step url goal acc a = some a := by
          unfold latest_step
          rw [if_pos hma]
          cases acc with
          | none => rfl
          | some b =>
            show (if b.ts < a.ts then some a else some b) = some a
            rw [if_pos (hacc b rfl)]
        rw [List.foldl_cons, hstep]
        exact latest_keep url goal a rest (fun x hx hxm => by
          rcases hdom x (List.mem_cons_of_mem a hx) hxm with rfl | hlt
          · omega
          · omega)
      · have hlt : a.ts < e.ts :=
          (hdom a (List.mem_cons_self a rest) hma).resolve_left hae
        have hmem2 : e ∈ rest := by
          rcases List.mem_cons.1 hmem with rfl | h
          · exact absurd rfl hae
          · exact h
        rw [List.foldl_cons]
        refine ih (latest_step url goal acc a) hmem2 hme
          (fun x hx hxm => hdom x (List.mem_cons_of_mem a hx) hxm) ?_
        intro b hb
        unfold latest_step at hb
        rw [if_pos hma] at hb
        cases acc with
        | none =>
          have hb2 : some a = some b := hb
          cases hb2
          exact hlt
        | some c =>
          have hc := hacc c rfl
          have hb2 : (if c.ts < a.ts then some a else some c) = some b := hb
          by_cases hlt2 : c.ts < a.ts
          · rw [if_pos hlt2] at hb2
            cases hb2
            exact hlt
          · rw [if_neg hlt2] at hb2
            cases hb2
            exact hc
    · have hae : e ≠ a := fun h => hma (h ▸ hme)
      have hmem2 : e ∈ rest := by
        rcases List.mem_cons.1 hmem with rfl | h
        · exact absurd rfl hae
        · exact h
      have hstep : latest_step url goal acc a = acc := by
        unfold latest_step
        rw [if_neg hma]
      rw [List.foldl_cons, hstep]
      exact ih acc hmem2 hme
        (fun x hx hxm => hdom x (List.mem_cons_of_mem a hx) hxm) hacc

/-- C6 counterexample: selector `a` has five successes (the highest
successCount), selector `b` a single, most recent one.  The code
returns `b` — the most recent — while the claimed
highest-successCount rule picks `a`. -/
theorem claim6_counterexample :
    consult_selector demo_c6 "u" "g" = some ("b", "")
    ∧ spec_resolve demo_c6 "u" "g" = some "a"
    ∧ ("b" : String) ≠ "a" := by
  refine ⟨by decide, by decide, by decide⟩

/-- C6 (amended): an exact (url, goal) lookup returns the selector and
hint of the most recent successful event (the matching row of strictly
greatest timestamp), regardless of how often each selector succeeded,
provided that row's stripped selector is nonempty. -/
theorem claim6_most_recent_wins (evs : List Event) (url goal : String) (e : Event)
    (hmem : e ∈ evs)
    (hme : event_matches url goal e = true)
    (hdom : ∀ x ∈ evs, event_matches url goal x = true → x = e ∨ x.ts < e.ts)
    (hsel : py_strip e.selector ≠ "") :
    consult_selector evs url goal = some (py_strip e.selector, py_strip e.hint) := by
  unfold consult_selector latest_success
  rw [latest_aux url goal e evs none hmem hme hdom (fun b hb => by cases hb)]
  simp [hsel]

/-- C6 witness on a two-row store. -/
theorem claim6_witness :
    consult_selector demo_w6 "u" "g" = some ("b", "h2") :=
  claim6_most_recent_wins demo_w6 "u" "g"
    { ts := 2, url := "u", goal := "g", selector := "b", hint := "h2"
    , action := "click", result := "success", notes := "", sid := "" }
    (by decide) (by decide) (by decide) (by decide)

/-- `key_eq` decides equality of key triples. -/
theorem key_eq_iff (a b : SwarmRec) : key_eq a b = true ↔ key_of a = key_of b := by
  simp [key_eq, key_of, Bool.and_eq_true, and_assoc]

/-- The update loop never changes any record's key triple. -/
theorem publish_loop_map_key (pub : SwarmRec) (now : Int) :
    ∀ arr : List SwarmRec,
    ((publish_loop pub now arr).1).map key_of = arr.map key_of := by
  intro arr
  induction arr with
  | nil => rfl
  | cons r rest ih =>
    by_cases hk : key_eq r pub = true
    · simp only [publish_loop, if_pos hk, List.map_cons]
      rfl
    · simp only [publish_loop, if_neg hk, List.map_cons, ih]

/-- When the loop reports no match, the array is unchanged and no record
shares the published key. -/
theorem publish_loop_not_found (pub : SwarmRec) (now : Int) :
    ∀ arr : List SwarmRec, (publish_loop pub now arr).2 = false →
    (publish_loop pub now arr).1 = arr ∧ ∀ r ∈ arr, key_eq r pub = false := by
  intro arr
  induction arr with
  | nil => intro _; exact ⟨rfl, by intro r hr; simp at hr⟩
  | cons r rest ih =>
    intro h
    by_cases hk : key_eq r pub = true
    · rw [show (publish_loop pub now (r :: rest)).2 = true from by
        simp only [publish_loop, if_pos hk]] at h
      cases h
    · have h2 : (publish_loop pub now rest).2 = false := by
        rw [show (publish_loop pub now (r :: rest)).2 = (publish_loop pub now rest).2
          from by simp only [publish_loop, if_neg hk]] at h
        exact h
      obtain ⟨he, hall⟩ := ih h2
      refine ⟨by simp only [publish_loop, if_neg hk, he], ?_⟩
      intro x hx
      rcases List.mem_cons.1 hx with rfl | hx2
      · simpa using hk
      · exact hall x hx2

/-- Two records of a key-unique array with the same key are the same
record. -/
theorem key_uniq_inj {arr : List SwarmRec} (hu : key_uniq arr)
    {a b : SwarmRec} (ha : a ∈ arr) (hb : b ∈ arr)
    (hk : key_of a = key_of b) : a = b :=
  List.inj_on_of_nodup_map hu ha hb hk

/-- In a key-unique cons cell, the head's key is absent from the tail. -/
theorem key_uniq_head_not_mem {r : SwarmRec} {rest : List SwarmRec}
    (hu : key_uniq (r :: rest)) : key_of r ∉ rest.map key_of := by
  have := hu
  simp only [key_uniq, List.map_cons, List.nodup_cons] at this
  exact this.1

theorem key_uniq_tail {r : SwarmRec} {rest : List SwarmRec}
    (hu : key_uniq (r :: rest)) : key_uniq rest := by
  have := hu
  simp only [key_uniq, List.map_cons, List.nodup_cons] at this
  exact this.2

/-- Counts never decrease through the update loop, on key-unique input. -/
theorem publish_loop_mono (pub : SwarmRec) (now : Int) :
    ∀ arr : List SwarmRec, key_uniq arr →
    ∀ r0 ∈ arr, ∀ r1 ∈ (publish_loop pub now arr).1,
    key_of r0 = key_of r1 → swarm_cnt r0 ≤ swarm_cnt r1 := by
  intro arr
  induction arr with
  | nil => intro _ r0 h0; simp at h0
  | cons r rest ih =>
    intro hu r0 h0 r1 h1 hk
    by_cases hkey : key_eq r pub = true
    · rw [show (publish_loop pub now (r :: rest)).1 = bump_rec pub now r :: rest from by
        simp only [publish_loop, if_pos hkey]] at h1
      rcases List.mem_cons.1 h0 with rfl | h0r <;> rcases List.mem_cons.1 h1 with h1e | h1r
      · subst h1e
        show swarm_cnt r0 ≤ (some (swarm_cnt r0 + 1)).getD 1
        simp [Option.getD]
      · exact absurd (hk ▸ List.mem_map_of_mem key_of h1r)
          (key_uniq_head_not_mem hu)
      · subst h1e
        have : key_of r0 = key_of r := hk
        exact absurd (this ▸ List.mem_map_of_mem key_of h0r)
          (key_uniq_head_not_mem hu)
      · have := key_uniq_inj (key_uniq_tail hu) h0r h1r hk
        subst this
        exact le_refl _
    · rw [show (publish_loop pub now (r :: rest)).1 = r :: (publish_loop pub now rest).1
        from by simp only [publish_loop, if_neg hkey]] at h1
      rcases List.mem_cons.1 h0 with rfl | h0r <;> rcases List.mem_cons.1 h1 with h1e | h1r
      · subst h1e; exact le_refl _
      · have hmem : key_of r1 ∈ rest.map key_of := by
          rw [← publish_loop_map_key pub now rest]
          exact List.mem_map_of_mem key_of h1r
        exact absurd (hk ▸ hmem) (key_uniq_head_not_mem hu)
      · subst h1e
        exact absurd (hk ▸ List.mem_map_of_mem key_of h0r)
          (key_uniq_head_not_mem hu)
      · exact ih (key_uniq_tail hu) r0 h0r r1 h1r hk

/-- Key uniqueness is preserved by the upsert. -/
theorem swarm_publish_uniq (pub : SwarmRec) (arr : List SwarmRec) (now : Int)
    (hu : key_uniq arr) : key_uniq (swarm_publish pub arr now) := by
  unfold swarm_publish
  by_cases hf : (publish_loop pub now arr).2 = true
  · rw [if_pos hf]
    show ((publish_loop pub now arr).1.map key_of).Nodup
    rw [publish_loop_map_key]
    exact hu
  · have hff : (publish_loop pub now arr).2 = false := by simpa using hf
    obtain ⟨he, hnone⟩ := publish_loop_not_found pub now arr hff
    rw [if_neg (by simp [hff]), he]
    show ((arr ++ [{ pub with cnt := some (swarm_cnt pub), ts := some now }]).map
      key_of).Nodup
    rw [List.map_append]
    rw [List.nodup_append]
    refine ⟨hu, by simp, ?_⟩
    intro k hkmem
    simp only [List.map_cons, List.map_nil, List.mem_singleton]
    intro hkp
    obtain ⟨r, hr, hrk⟩ := List.mem_map.1 hkmem
    have hkpub : key_of r = key_of pub := by rw [hrk, hkp]; rfl
    have hfalse := hnone r hr
    rw [(key_eq_iff r pub).2 hkpub] at hfalse
    cases hfalse

/-- Cleaning only filters, so membership passes back to the upsert
result. -/
theorem clean_swarm_subset {big : Bool} {now : Int} {arr : List SwarmRec}
    {r : SwarmRec} (h : r ∈ clean_swarm big now arr) : r ∈ arr := by
  unfold clean_swarm at h
  by_cases hb : big = true
  · rw [if_pos hb] at h
    exact List.mem_of_mem_filter h
  · rw [if_neg hb] at h
    exact h

/-- Cleaning preserves key uniqueness. -/
theorem clean_swarm_uniq (big : Bool) (now : Int) (arr : List SwarmRec)
    (hu : key_uniq arr) : key_uniq (clean_swarm big now arr) := by
  unfold clean_swarm
  by_cases hb : big = true
  · rw [if_pos hb]
    exact List.Nodup.sublist (List.Sublist.map key_of (List.filter_sublist arr)) hu
  · rw [if_neg hb]
    exact hu

/-- The published-and-cleaned store keeps keys unique. -/
theorem swarm_publish_full_uniq (pub : SwarmRec) (arr : List SwarmRec)
    (now : Int) (big : Bool) (hu : key_uniq arr) :
    key_uniq (swarm_publish_full pub arr now big) :=
  clean_swarm_uniq big now _ (swarm_publish_uniq pub arr now hu)

/-- The published-and-cleaned store never decreases a key's count. -/
theorem swarm_publish_full_mono (pub : SwarmRec) (arr : List SwarmRec)
    (now : Int) (big : Bool) (hu : key_uniq arr) :
    ∀ r0 ∈ arr, ∀ r1 ∈ swarm_publish_full pub arr now big,
    key_of r0 = key_of r1 → swarm_cnt r0 ≤ swarm_cnt r1 := by
  intro r0 h0 r1 h1 hk
  have h1p : r1 ∈ swarm_publish pub arr now := clean_swarm_subset h1
  unfold swarm_publish at h1p
  by_cases hf : (publish_loop pub now arr).2 = true
  · rw [if_pos hf] at h1p
    exact publish_loop_mono pub now arr hu r0 h0 r1 h1p hk
  · have hff : (publish_loop pub now arr).2 = false := by simpa using hf
    obtain ⟨he, hnone⟩ := publish_loop_not_found pub now arr hff
    rw [if_neg (by simp [hff]), he] at h1p
    rcases List.mem_append.1 h1p with h1a | h1n
    · have := key_uniq_inj hu h0 h1a hk
      subst this
      exact le_refl _
    · simp only [List.mem_singleton] at h1n
      subst h1n
      have hkp : key_of r0 = key_of pub := hk
      have hfalse := hnone r0 h0
      rw [(key_eq_iff r0 pub).2 hkp] at hfalse
      cases hfalse

/-- C7: upserting the same (selector, url, goal) record twice into an
empty store yields a single record whose count goes from 1 to 2 with a
refreshed timestamp; key uniqueness is preserved by every publish, and
no surviving record's count ever decreases. -/
theorem claim7_upsert_increments_once (pub : SwarmRec) (n1 n2 : Int)
    (b1 b2 : Bool) (hcnt : swarm_cnt pub = 1) :
    swarm_publish_full pub [] n1 b1 = [{ pub with cnt := some 1, ts := some n1 }]
    ∧ swarm_publish_full pub (swarm_publish_full pub [] n1 b1) n2 b2 =
        [{ pub with cnt := some 2, ts := some n2 }]
    ∧ (∀ (p : SwarmRec) (arr : List SwarmRec) (now : Int) (big : Bool),
        key_uniq arr → key_uniq (swarm_publish_full p arr now big))
    ∧ (∀ (p : SwarmRec) (arr : List SwarmRec) (now : Int) (big : Bool),
        key_uniq arr → ∀ r0 ∈ arr, ∀ r1 ∈ swarm_publish_full p arr now big,
        key_of r0 = key_of r1 → swarm_cnt r0 ≤ swarm_cnt r1) := by
  have hkeep : ∀ (n : Int) (b : Bool) (c : Int), 1 ≤ c →
      clean_swarm b n [{ pub with cnt := some c, ts := some n }] =
        [{ pub with cnt := some c, ts := some n }] := by
    intro n b c hc
    unfold clean_swarm
    by_cases hb : b = true
    · rw [if_pos hb]
      have h1 : (n - (some n).getD n) < 30 * 86400 := by
        simp only [Option.getD]
        omega
      have h2 : (1 : Int) ≤ swarm_cnt { pub with cnt := some c, ts := some n } := by
        simpa [swarm_cnt] using hc
      simp [List.filter, decide_eq_true h1, decide_eq_true h2]
    · rw [if_neg hb]
  have hfst : swarm_publish_full pub [] n1 b1 =
      [{ pub with cnt := some 1, ts := some n1 }] := by
    unfold swarm_publish_full swarm_publish publish_loop
    rw [hcnt]
    simpa using hkeep n1 b1 1 (by omega)
  have hkey : key_eq { pub with cnt := some 1, ts := some n1 } pub = true := by
    simp [key_eq]
  have hsnd : swarm_publish_full pub (swarm_publish_full pub [] n1 b1) n2 b2 =
      [{ pub with cnt := some 2, ts := some n2 }] := by
    rw [hfst]
    unfold swarm_publish_full swarm_publish publish_loop
    rw [if_pos hkey]
    have hbump : bump_rec pub n2 { pub with cnt := some 1, ts := some n1 } =
        { pub with cnt := some 2, ts := some n2 } := by
      unfold bump_rec swarm_cnt
      by_cases hs : pub.sid ≠ ""
      · simp [if_pos hs]
      · simp [if_neg hs]
    rw [hbump]
    simpa using hkeep n2 b2 2 (by omega)
  exact ⟨hfst, hsnd, swarm_publish_full_uniq, swarm_publish_full_mono⟩

/-- C7 witness: two identical publishes of a fresh record. -/
theorem claim7_witness :
    swarm_publish_full rec_w7 [] 10 false =
      [{ rec_w7 with cnt := some 1, ts := some 10 }]
    ∧ swarm_publish_full rec_w7 (swarm_publish_full rec_w7 [] 10 false) 20 false =
        [{ rec_w7 with cnt := some 2, ts := some 20 }] :=
  ⟨(claim7_upsert_increments_once rec_w7 10 20 false false rfl).1,
   (claim7_upsert_increments_once rec_w7 10 20 false false rfl).2.1⟩
